import Mathlib

/-
Verification of the Nutify ingestion-and-aggregation pipeline
(shallow embedding of src/nutify/core/db_module.py and src/nutify/app.py).

Conventions of the embedding:
- Wall-clock instants are modelled as non-negative seconds (Nat) in the
  configured local timezone.  All real timezone offsets are whole minutes,
  so flooring a local time to its minute coincides with flooring the
  modelled second count to a multiple of 60; the `astimezone` conversions
  of the source are therefore the identity here.
- Python floats are modelled as rationals; `round(x, 2)` is modelled as
  exact decimal rounding to 2 places with half-to-even tie-breaking
  (the binary representation error of IEEE doubles is elided).
- Raw NUT values are strings; the string values that `get_ups_data` has
  already converted are modelled by the `RawValue` type (num/str).
- Database commits are modelled as atomic: a failed commit persists
  nothing.  Exceptions are modelled by an explicit `dbError` flag on the
  operations whose bodies are wrapped in try/except in the source.
-/

/-- Rounding of a rational to the nearest integer with half-to-even
tie-breaking, the rule used by Python's builtin round and by
numpy/pandas round.  `n` is the floor of `x` (computed from the
numerator and denominator over the integers), `r` the numerator of the
fractional part over the denominator; comparing `2 * r` with the
denominator compares the fractional part with one half. -/
def roundHalfEven (x : ℚ) : ℤ :=
  let n : ℤ := x.num.fdiv (x.den : ℤ)
  let r : ℤ := x.num - n * (x.den : ℤ)
  if 2 * r < (x.den : ℤ) then n
  else if (x.den : ℤ) < 2 * r then n + 1
  else if n % 2 = 0 then n else n + 1

/-- Models Python round(x, 2): rounding to two decimal places. -/
def round2 (x : ℚ) : ℚ := ((roundHalfEven (x * 100) : ℤ) : ℚ) / 100

/-
The aggregation buffer: class UPSDataCache of db_module.py.
The state below carries the pieces of UPSDataCache that the per-minute
flush cycle reads and writes, together with the timestamps of the
persisted per-minute records (column timestamp_tz of ups_dynamic_data).
The buffered sample dictionaries, the hourly sub-state (next_hour,
hourly_data) and the daily sub-state (last_daily_aggregation) do not
affect the per-minute timing and are modelled separately below.
-/

/-- State of UPSDataCache as seen by the flush cycle: `data` holds the
arrival seconds of the buffered raw samples, `next_save_time` is the
next minute boundary (None until the first sample arrives), `next_hour`
and `hourly_data` are the hourly sub-state (the boundary of the next
hourly rollup and the timestamps of the per-minute averages buffered
towards it), and `records` lists the timestamp_tz values of the
per-minute records persisted so far, in insertion order. -/
structure UPSCacheState where
  data : List Nat
  next_save_time : Option Nat
  next_hour : Option Nat
  hourly_data : List Nat
  records : List Nat
deriving DecidableEq

/-- State of the cache at process start (UPSDataCache.__init__). -/
def initCache : UPSCacheState :=
  { data := [], next_save_time := none, next_hour := none, hourly_data := [], records := [] }

/-- Models UPSDataCache.get_next_minute: the current local time with
seconds and microseconds zeroed, plus one minute. -/
def get_next_minute (current_time : Nat) : Nat := current_time / 60 * 60 + 60

/-- Models UPSDataCache.get_next_hour: the current local time with
minutes, seconds and microseconds zeroed, plus one hour. -/
def get_next_hour (current_time : Nat) : Nat := current_time / 3600 * 3600 + 3600

/-- Models UPSDataCache.is_save_time: true iff next_save_time is set and
the current time has reached it. -/
def is_save_time (s : UPSCacheState) (current_time : Nat) : Bool :=
  match s.next_save_time with
  | none => false
  | some m => decide (m ≤ current_time)

/-- Models UPSDataCache.add: append the sample to the buffer, and on the
very first sample ever initialize next_save_time to the next whole
minute at or after the sample's timestamp. -/
def cacheAdd (s : UPSCacheState) (timestamp : Nat) : UPSCacheState :=
  { s with
    data := s.data ++ [timestamp]
    next_save_time := some (s.next_save_time.getD (get_next_minute timestamp)) }

/-- Models UPSDataCache.calculate_and_save_averages (db_module.py lines
933-1021).  Returns the success flag together with the new state.  In
source order: next_hour is initialized when unset (line 939, before any
other check); an unset or not-yet-due next_save_time returns False; an
empty buffer makes calculate_averages return None, so the cycle returns
False.  Every sample carries ups_realpower (get_ups_data guarantees it),
so the minute average is always appended to the hourly buffer (line 966,
modelled by its timestamp); when `now` has crossed next_hour the hourly
rollup is computed from the queried records (hourlyRollup below, values
not tracked here) and the hourly sub-state is reset and advanced (lines
995-996).  `dbError` models an exception raised at the commit (line
1005): it is caught at line 1019 and the function returns False - the
atomic failed commit persists no record, and the buffer, next_save_time
and records are untouched, but the hourly mutations already made above
are not rolled back.  On success the new record is stamped with
next_save_time itself (not `now`), the buffer is cleared, and
next_save_time is recomputed as get_next_minute(now). -/
def calculate_and_save_averages (s : UPSCacheState) (now : Nat) (dbError : Bool) :
    Bool × UPSCacheState :=
  let nh := s.next_hour.getD (get_next_hour now)
  match s.next_save_time with
  | none => (false, { s with next_hour := some nh })
  | some m =>
    if now < m then (false, { s with next_hour := some nh })
    else if s.data = [] then (false, { s with next_hour := some nh })
    else
      let crossed := nh ≤ now
      let hourly := if crossed then [] else s.hourly_data ++ [m]
      let nh2 := if crossed then get_next_hour now else nh
      if dbError then
        (false, { s with next_hour := some nh2, hourly_data := hourly })
      else
        (true,
          { data := []
            next_save_time := some (get_next_minute now)
            next_hour := some nh2
            hourly_data := hourly
            records := s.records ++ [m] })

/-- One iteration of the steady-state polling loop at second `t`
(save_ups_data in db_module.py: add the fresh sample, then run the flush
check), with the device read and the database commit succeeding. -/
def pollSecond (s : UPSCacheState) (t : Nat) : UPSCacheState :=
  (calculate_and_save_averages (cacheAdd s t) t false).2

/-- Run the polling loop for `n` consecutive seconds starting at `t0`:
one sample per second, as produced by polling_thread's 1-second sleep. -/
def pollRun (s : UPSCacheState) (t0 : Nat) : Nat → UPSCacheState
  | 0 => s
  | n + 1 => pollRun (pollSecond s t0) (t0 + 1) n

/-- Invariant of the steady-state run: after processing the sample of
second `t`, the boundary is the k-th minute boundary after start, it is
still in the future but at most one minute away, and the persisted
records are exactly the first k boundaries. -/
def cacheInv (t0 : Nat) (s : UPSCacheState) (t : Nat) : Prop :=
  ∃ k, s.next_save_time = some (get_next_minute t0 + 60 * k)
     ∧ s.records = (List.range k).map (fun i => get_next_minute t0 + 60 * i)
     ∧ t < get_next_minute t0 + 60 * k
     ∧ get_next_minute t0 + 60 * k ≤ t + 60

lemma pollSecond_no_flush (s : UPSCacheState) (t m : Nat)
    (hm : s.next_save_time.getD (get_next_minute t) = m) (hlt : t < m) :
    (pollSecond s t).records = s.records
    ∧ (pollSecond s t).next_save_time = some m := by
  simp [pollSecond, cacheAdd, calculate_and_save_averages, hm, hlt]

lemma pollSecond_flush (s : UPSCacheState) (t m : Nat)
    (hm : s.next_save_time.getD (get_next_minute t) = m) (hle : m ≤ t) :
    (pollSecond s t).records = s.records ++ [m]
    ∧ (pollSecond s t).next_save_time = some (get_next_minute t) := by
  have hnlt : ¬ (t < m) := by omega
  simp [pollSecond, cacheAdd, calculate_and_save_averages, hm, hnlt]

lemma cacheInv_start (t0 : Nat) : cacheInv t0 (pollSecond initCache t0) t0 := by
  have hm : initCache.next_save_time.getD (get_next_minute t0) = get_next_minute t0 := rfl
  have hlt : t0 < get_next_minute t0 := by unfold get_next_minute; omega
  obtain ⟨hr, hn⟩ := pollSecond_no_flush initCache t0 (get_next_minute t0) hm hlt
  refine ⟨0, ?_, ?_, ?_, ?_⟩
  · rw [hn]; norm_num
  · rw [hr]; rfl
  · unfold get_next_minute; omega
  · unfold get_next_minute; omega

lemma cacheInv_step (t0 t : Nat) (s : UPSCacheState) (h : cacheInv t0 s t) :
    cacheInv t0 (pollSecond s (t + 1)) (t + 1) := by
  obtain ⟨k, h1, h2, h3, h4⟩ := h
  have hm : s.next_save_time.getD (get_next_minute (t + 1)) = get_next_minute t0 + 60 * k := by
    rw [h1]
    rfl
  by_cases hdue : get_next_minute t0 + 60 * k ≤ t + 1
  · -- the boundary is hit exactly at second t+1, a flush fires
    have heq : get_next_minute t0 + 60 * k = t + 1 := by omega
    obtain ⟨hr, hn⟩ := pollSecond_flush s (t + 1) _ hm hdue
    have hdiv : get_next_minute (t + 1) = get_next_minute t0 + 60 * (k + 1) := by
      unfold get_next_minute at heq ⊢
      omega
    refine ⟨k + 1, ?_, ?_, by omega, by omega⟩
    · rw [hn, hdiv]
    · rw [hr, h2, List.range_succ, List.map_append, List.map_cons, List.map_nil]
  · -- boundary not yet reached, the sample is only buffered
    have hlt : t + 1 < get_next_minute t0 + 60 * k := by omega
    obtain ⟨hr, hn⟩ := pollSecond_no_flush s (t + 1) _ hm hlt
    refine ⟨k, ?_, ?_, by omega, by omega⟩
    · rw [hn]
    · rw [hr, h2]

lemma cacheInv_run (t0 : Nat) :
    ∀ (n t : Nat) (s : UPSCacheState), cacheInv t0 s t →
      cacheInv t0 (pollRun s (t + 1) n) (t + n) := by
  intro n
  induction n with
  | zero => intro t s h; simpa [pollRun] using h
  | succ n ih =>
    intro t s h
    have h1 := cacheInv_step t0 t s h
    have h2 := ih (t + 1) (pollSecond s (t + 1)) h1
    simp only [pollRun]
    have : t + 1 + n = t + (n + 1) := by omega
    rw [← this]
    exact h2

/-- Claim C1 counterexample: the claim states that after every successful
flush next_save_time is advanced by exactly one minute from its previous
value and is never re-derived from the current time.  The code instead
recomputes it as get_next_minute(current_time) (db_module.py line 1011):
after a polling gap (for instance a backoff sleep) a flush at now = 185
with next_save_time = 60 succeeds and sets the boundary to 240, not to
60 + 60 = 120. -/
theorem next_save_time_rederived_counterexample :
    (calculate_and_save_averages
        { data := [0, 185], next_save_time := some 60, next_hour := some 3600,
          hourly_data := [], records := [] } 185 false).1 = true
    ∧ (calculate_and_save_averages
        { data := [0, 185], next_save_time := some 60, next_hour := some 3600,
          hourly_data := [], records := [] } 185 false).2.next_save_time
      = some 240
    ∧ (240 : Nat) ≠ 60 + 60 := by decide

/-- Claim C1 (amended): after a successful flush the code re-derives
next_save_time from the current time as the next whole minute after
`now`; nevertheless, for any once-per-second sample sequence (steady
state) the persisted per-minute record timestamps are exactly the
successive minute boundaries, hence exactly 60 seconds apart, with no
drift and no double flush. -/
theorem flush_timestamps_steady (t0 n : Nat) :
    ∃ k, (pollRun initCache t0 n).records
        = (List.range k).map (fun i => get_next_minute t0 + 60 * i) := by
  cases n with
  | zero => exact ⟨0, by simp [pollRun, initCache]⟩
  | succ n =>
    have h0 := cacheInv_start t0
    have h := cacheInv_run t0 n t0 (pollSecond initCache t0) h0
    obtain ⟨k, _, h2, _, _⟩ := h
    exact ⟨k, by simpa [pollRun] using h2⟩

/-- Claim C3 counterexample: the claim states the raw sample buffer is
cleared regardless of the error.  In the code the `except` branch of
calculate_and_save_averages only logs and returns False; `self.data` is
cleared (line 1009) only after a successful commit.  At a due boundary
with a non-empty buffer and a database error, the buffer survives (first
three conjuncts).  The last two conjuncts document that the error path
is not free of mutation either: at an hour boundary the hourly append
and reset (lines 966, 995-996) precede the failing commit, so
hourly_data is emptied and next_hour advanced even though nothing was
persisted. -/
theorem flush_error_buffer_kept_counterexample :
    (calculate_and_save_averages
        { data := [0, 60], next_save_time := some 60, next_hour := some 3600,
          hourly_data := [], records := [] } 60 true).1 = false
    ∧ (calculate_and_save_averages
        { data := [0, 60], next_save_time := some 60, next_hour := some 3600,
          hourly_data := [], records := [] } 60 true).2.data = [0, 60]
    ∧ ([0, 60] : List Nat) ≠ []
    ∧ (calculate_and_save_averages
        { data := [3550, 3600], next_save_time := some 3600, next_hour := some 3600,
          hourly_data := [3540], records := [] } 3600 true).2.next_hour = some 7200
    ∧ (calculate_and_save_averages
        { data := [3550, 3600], next_save_time := some 3600, next_hour := some 3600,
          hourly_data := [3540], records := [] } 3600 true).2.hourly_data = [] := by
  decide

/-- Claim C3 (amended): any error during a flush cycle is caught and
logged - the operation returns False instead of raising - and no
partially committed measurement record exists afterwards: the single
commit is atomic, so on error the persisted records are exactly as
before.  The raw buffer, however, is cleared only by a successful flush,
never on error; and the in-memory hourly sub-state mutated before the
failing commit is not rolled back (see the counterexample). -/
theorem flush_error_all_or_nothing (s : UPSCacheState) (now : Nat) :
    ((calculate_and_save_averages s now true).1 = false
      ∧ (calculate_and_save_averages s now true).2.records = s.records
      ∧ (calculate_and_save_averages s now true).2.data = s.data)
    ∧ ((calculate_and_save_averages s now false).1 = true →
        (calculate_and_save_averages s now false).2.data = []
        ∧ ∃ m, s.next_save_time = some m
             ∧ (calculate_and_save_averages s now false).2.records = s.records ++ [m]) := by
  unfold calculate_and_save_averages
  match hn : s.next_save_time with
  | none => simp
  | some m =>
    by_cases h1 : now < m
    · simp [h1]
    · by_cases h2 : s.data = []
      · simp [h1, h2]
      · simp [h1, h2]

theorem flush_error_all_or_nothing_witness :
    (calculate_and_save_averages
        { data := [0, 60], next_save_time := some 60, next_hour := some 3600,
          hourly_data := [], records := [] } 60 true).2.data = [0, 60]
    ∧ (calculate_and_save_averages
        { data := [0, 60], next_save_time := some 60, next_hour := some 3600,
          hourly_data := [], records := [] } 60 true).2.records = []
    ∧ (calculate_and_save_averages
        { data := [0, 60], next_save_time := some 60, next_hour := some 3600,
          hourly_data := [], records := [] } 60 false).2.data = [] := by
  have h := flush_error_all_or_nothing
    { data := [0, 60], next_save_time := some 60, next_hour := some 3600,
      hourly_data := [], records := [] } 60
  exact ⟨h.1.2.2, h.1.2.1, (h.2 (by decide)).1⟩

/-
The polling loop: polling_thread in app.py, together with the error
behaviour of save_ups_data and get_ups_data in db_module.py.
-/

/-- Outcome of one device read attempt (get_ups_data): either a sample
is produced, or a classified UPS error is raised.  get_ups_data wraps
every internal failure into UPSDataError; the connection and command
variants exist in the error taxonomy of db_module.py. -/
inductive PollLoopEvent
  | ok
  | connError
  | commandError
  | upsDataError
deriving DecidableEq

/-- Models the success flag returned by save_ups_data: its whole body is
wrapped in try/except Exception, so a classified UPS error raised by
get_ups_data is caught inside save_ups_data, which returns
(False, error message) instead of letting the exception propagate. -/
def save_ups_data_ok (e : PollLoopEvent) : Bool :=
  match e with
  | PollLoopEvent.ok => true
  | _ => false

/-- Models the backoff formula appearing in polling_thread's exception
handlers: min(300, 2 ** failures). -/
def backoff_delay (failures : Nat) : Nat := min 300 (2 ^ failures)

/-- Models one iteration of the while-loop of polling_thread (app.py
lines 101-124): returns (new failure counter, seconds slept before the
next attempt).  Because save_ups_data never lets a classified error
escape, control always stays in the try-branch: the counter is
incremented on a failed cycle (or reset on success) and the loop sleeps
the fixed 1-second interval.  The typed except branches that would sleep
backoff_delay are unreachable for Connection/Command/Data errors. -/
def polling_cycle (failures : Nat) (e : PollLoopEvent) : Nat × Nat :=
  if save_ups_data_ok e then (0, 1) else (failures + 1, 1)

/-- Claim C4 (code bug): on a classified error the loop increments the
failure counter but sleeps 1 second, not min(300, 2^N) = backoff_delay N
as the spec (and the dead except branches of polling_thread) prescribe;
a successful cycle does reset the counter to 0 and sleeps 1 second. -/
theorem polling_no_backoff :
    polling_cycle 0 PollLoopEvent.upsDataError = (1, 1)
    ∧ polling_cycle 0 PollLoopEvent.connError = (1, 1)
    ∧ polling_cycle 5 PollLoopEvent.commandError = (6, 1)
    ∧ polling_cycle 37 PollLoopEvent.ok = (0, 1)
    ∧ backoff_delay 1 = 2
    ∧ (polling_cycle 0 PollLoopEvent.upsDataError).2 ≠ backoff_delay 1 := by decide

/-
The hourly rollup block of calculate_and_save_averages (db_module.py
lines 977-997): when the hour boundary is crossed, the per-minute
records of the just-completed hour are queried back from the database
and the mean of their non-null ups_realpower values is written into
ups_realpower_hrs of the record being flushed.
-/

/-- Models the hourly-average computation: `hour_data` holds the
ups_realpower column of the per-minute records returned by the window
query (None for a null cell).  An empty query result, or one with no
non-null power values, writes nothing. -/
def hourlyRollup (hour_data : List (Option ℚ)) : Option ℚ :=
  if hour_data = [] then none
  else
    let powers := hour_data.filterMap id
    if powers = [] then none
    else some (round2 (powers.sum / (powers.length : ℚ)))

/-- Claim C5: with k > 0 non-null instantaneous-power values among the
hour's records the value written equals round(S/k, 2), the divisor being
the positive count k (never zero); with zero qualifying values the
rollup is skipped and nothing is written. -/
theorem hourly_rollup_spec (hour_data : List (Option ℚ)) :
    (hour_data.filterMap id ≠ [] →
      0 < (hour_data.filterMap id).length
      ∧ hourlyRollup hour_data
        = some (round2 ((hour_data.filterMap id).sum / ((hour_data.filterMap id).length : ℚ))))
    ∧ (hour_data.filterMap id = [] → hourlyRollup hour_data = none) := by
  constructor
  · intro h
    refine ⟨List.length_pos.mpr h, ?_⟩
    have hne : hour_data ≠ [] := by
      intro hcon
      rw [hcon] at h
      simp at h
    simp only [hourlyRollup, if_neg hne, if_neg h]
  · intro h
    by_cases hl : hour_data = [] <;> simp [hourlyRollup, hl, h]

theorem hourly_rollup_spec_witness :
    hourlyRollup [some 10, none, some 20] = some 15
    ∧ hourlyRollup [none, none] = none := by
  have h1 := (hourly_rollup_spec [some 10, none, some 20]).1 (by decide)
  have h2 := (hourly_rollup_spec [none, none]).2 (by decide)
  refine ⟨?_, h2⟩
  rw [h1.2, show List.filterMap id [some (10 : ℚ), none, some 20] = [10, 20] from rfl]
  norm_num [List.sum_cons, List.sum_nil, round2, roundHalfEven]

/-
Daily aggregation guard: UPSDataCache.should_aggregate_daily
(db_module.py lines 1125-1137).
-/

/-- Local wall-clock instant as seen by should_aggregate_daily: the
calendar date (as an ordinal) plus hour and minute of day. -/
structure LocalClock where
  date : Nat
  hour : Nat
  minute : Nat
deriving DecidableEq

/-- Models should_aggregate_daily: returns the decision together with
the updated last_daily_aggregation field.  True only within the first
minute past midnight and only when last_daily_aggregation differs from
the current date, in which case the date is recorded. -/
def should_aggregate_daily (last_daily_aggregation : Option Nat) (t : LocalClock) :
    Bool × Option Nat :=
  if t.hour = 0 ∧ t.minute = 0 then
    if last_daily_aggregation ≠ some t.date then (true, some t.date)
    else (false, last_daily_aggregation)
  else (false, last_daily_aggregation)

/-- Run a sequence of daily-aggregation checks, threading the
last_daily_aggregation state, and collect each check's decision. -/
def dailyChecks (last_daily_aggregation : Option Nat) : List LocalClock → List Bool
  | [] => []
  | t :: ts =>
    let r := should_aggregate_daily last_daily_aggregation t
    r.1 :: dailyChecks r.2 ts

lemma should_aggregate_daily_done (d : Nat) (t : LocalClock) (ht : t.date = d) :
    should_aggregate_daily (some d) t = (false, some d) := by
  unfold should_aggregate_daily
  subst ht
  by_cases h : t.hour = 0 ∧ t.minute = 0
  · rw [if_pos h, if_neg (by simp)]
  · rw [if_neg h]

lemma dailyChecks_done (d : Nat) (ts : List LocalClock) (h : ∀ t ∈ ts, t.date = d) :
    dailyChecks (some d) ts = List.replicate ts.length false := by
  induction ts with
  | nil => rfl
  | cons t ts ih =>
    simp only [dailyChecks]
    rw [should_aggregate_daily_done d t (h t (by simp))]
    simp [ih (fun u hu => h u (by simp [hu]))]
    rfl

lemma should_aggregate_daily_true_state (last : Option Nat) (t : LocalClock)
    (h : (should_aggregate_daily last t).1 = true) :
    (should_aggregate_daily last t).2 = some t.date := by
  unfold should_aggregate_daily at h ⊢
  by_cases h1 : t.hour = 0 ∧ t.minute = 0
  · rw [if_pos h1] at h ⊢
    by_cases h2 : last ≠ some t.date
    · rw [if_pos h2]
    · rw [if_neg h2] at h
      simp at h
  · rw [if_neg h1] at h
    simp at h

/-- Claim C6: for any sequence of daily-aggregation checks that all fall
on the same calendar date - in particular repeated checks during the
first minute past midnight - should_aggregate_daily returns true at most
once, whatever the initial last_daily_aggregation value. -/
theorem daily_aggregation_once (ts : List LocalClock) (d : Nat)
    (hd : ∀ t ∈ ts, t.date = d) (last0 : Option Nat) :
    (dailyChecks last0 ts).count true ≤ 1 := by
  induction ts generalizing last0 with
  | nil => simp [dailyChecks]
  | cons t ts ih =>
    simp only [dailyChecks]
    cases hr : (should_aggregate_daily last0 t).1 with
    | false =>
      have htail := ih (fun u hu => hd u (by simp [hu])) (should_aggregate_daily last0 t).2
      simpa [List.count_cons] using htail
    | true =>
      have hstate := should_aggregate_daily_true_state last0 t hr
      have hdate : t.date = d := hd t (by simp)
      have hrep := dailyChecks_done d ts (fun u hu => hd u (by simp [hu]))
      rw [hstate, hdate, hrep]
      simp [List.count_cons, List.count_replicate]

theorem daily_aggregation_once_witness :
    (dailyChecks none
      [{ date := 100, hour := 0, minute := 0 },
       { date := 100, hour := 0, minute := 0 },
       { date := 100, hour := 0, minute := 0 }]).count true ≤ 1 :=
  daily_aggregation_once
    [{ date := 100, hour := 0, minute := 0 },
     { date := 100, hour := 0, minute := 0 },
     { date := 100, hour := 0, minute := 0 }] 100 (by decide) none

/-
Field type inference.  get_available_ups_variables, create_static_model
and create_dynamic_model all classify a raw NUT value string with the
same try/except chain: try float(value) -> db.Float, then try
int(value) -> db.Integer, else db.String(255).  The recognizers below
model which strings Python's float() and int() accept (ASCII form of
CPython's grammar: optional surrounding whitespace, optional sign, a
digit sequence with single underscores between digits, for float also an
optional fractional part, exponent, and the inf/infinity/nan words).
-/

/-- Whitespace characters stripped by Python before parsing a numeric
string. -/
def isPySpace (c : Char) : Bool :=
  c == ' ' || c == '\t' || c == '\n' || c == '\r' || c == '\x0b' || c == '\x0c'

/-- Strip leading and trailing whitespace. -/
def stripWs (l : List Char) : List Char :=
  ((l.dropWhile isPySpace).reverse.dropWhile isPySpace).reverse

/-- Strip one optional leading sign character. -/
def stripSignL (l : List Char) : List Char :=
  match l with
  | [] => []
  | c :: r => if c == '+' || c == '-' then r else c :: r

/-- Accept the tail of a digit sequence in which single underscores may
occur only between digits; the flag records whether the previous
character was an underscore (so the next must be a digit, and the
sequence must not end). -/
def undAux : Bool → List Char → Bool
  | afterU, [] => !afterU
  | afterU, c :: rest =>
    if c == '_' then !afterU && undAux true rest
    else c.isDigit && undAux false rest

/-- Accept a non-empty digit sequence with single underscores between
digits: Python's digitpart production. -/
def digitsUnd (l : List Char) : Bool :=
  match l with
  | [] => false
  | c :: rest => c.isDigit && undAux false rest

/-- Exponent markers of a float literal. -/
def isExpMark (c : Char) : Bool := c == 'e' || c == 'E'

/-- The decimal point. -/
def isDotMark (c : Char) : Bool := c == '.'

/-- Split a character list at the first character satisfying `p`:
returns the prefix before it and, when found, the remainder after it. -/
def splitAtFirst (p : Char → Bool) : List Char → List Char × Option (List Char)
  | [] => ([], none)
  | c :: rest =>
    if p c then ([], some rest)
    else
      let s := splitAtFirst p rest
      (c :: s.1, s.2)

/-- Accept a float mantissa: digits, digits followed by a dot and
optional digits, or a dot followed by digits. -/
def mantOk (l : List Char) : Bool :=
  match splitAtFirst isDotMark l with
  | (a, none) => digitsUnd a
  | (a, some b) => (digitsUnd a && (b.isEmpty || digitsUnd b)) || (a.isEmpty && digitsUnd b)

/-- Accept a float exponent body: an optional sign then digits. -/
def expPartOk (l : List Char) : Bool := digitsUnd (stripSignL l)

/-- Accept the numeric body of a float literal: a mantissa with an
optional exponent. -/
def numOk (l : List Char) : Bool :=
  match splitAtFirst isExpMark l with
  | (m, none) => mantOk m
  | (m, some e) => mantOk m && expPartOk e

/-- Lowercase spellings of the special float words. -/
def infChars : List Char := ['i', 'n', 'f']

def infinityChars : List Char := ['i', 'n', 'f', 'i', 'n', 'i', 't', 'y']

def nanChars : List Char := ['n', 'a', 'n']

/-- Accept the case-insensitive special float words inf, infinity, nan. -/
def infNanOk (l : List Char) : Bool :=
  (l.map Char.toLower == infChars) || (l.map Char.toLower == infinityChars)
    || (l.map Char.toLower == nanChars)

/-- Models whether int(value) succeeds on a string: surrounding
whitespace, an optional sign, then a digit sequence. -/
def pyIntOk (s : List Char) : Bool := digitsUnd (stripSignL (stripWs s))

/-- Models whether float(value) succeeds on a string: surrounding
whitespace, an optional sign, then either a special word or a numeric
body. -/
def pyFloatOk (s : List Char) : Bool :=
  let b := stripSignL (stripWs s)
  infNanOk b || numOk b

/-- Column types produced by the schema derivation (db.Float,
db.Integer, db.String(255), and db.DateTime for the base timestamp
columns). -/
inductive ColType
  | float
  | integer
  | string
  | datetime
deriving DecidableEq

/-- Models the try float / try int / else string classification used by
get_available_ups_variables, create_static_model and
create_dynamic_model to pick the column type of a raw value. -/
def inferColumnType (value : String) : ColType :=
  if pyFloatOk value.data then ColType.float
  else if pyIntOk value.data then ColType.integer
  else ColType.string

lemma undAux_chars (l : List Char) : ∀ b : Bool, undAux b l = true →
    ∀ c ∈ l, (c.isDigit || c == '_') = true := by
  induction l with
  | nil =>
    intro b _ c hc
    simp at hc
  | cons x xs ih =>
    intro b h c hc
    simp only [undAux] at h
    by_cases hx : (x == '_') = true
    · rw [if_pos hx, Bool.and_eq_true] at h
      rcases List.mem_cons.mp hc with rfl | hc'
      · simp [hx]
      · exact ih true h.2 c hc'
    · rw [if_neg hx, Bool.and_eq_true] at h
      rcases List.mem_cons.mp hc with rfl | hc'
      · simp [h.1]
      · exact ih false h.2 c hc'

lemma digitsUnd_chars (l : List Char) (h : digitsUnd l = true) :
    ∀ c ∈ l, (c.isDigit || c == '_') = true := by
  cases l with
  | nil => simp [digitsUnd] at h
  | cons x xs =>
    rw [digitsUnd, Bool.and_eq_true] at h
    intro c hc
    rcases List.mem_cons.mp hc with rfl | hc'
    · simp [h.1]
    · exact undAux_chars xs false h.2 c hc'

lemma splitAtFirst_no_match (p : Char → Bool) (l : List Char)
    (h : ∀ c ∈ l, p c = false) : splitAtFirst p l = (l, none) := by
  induction l with
  | nil => rfl
  | cons x xs ih =>
    simp only [splitAtFirst]
    rw [h x (List.mem_cons_self x xs)]
    simp [ih (fun c hc => h c (List.mem_cons_of_mem x hc))]

lemma digit_or_underscore_not_exp (c : Char)
    (h : (c.isDigit || c == '_') = true) : isExpMark c = false := by
  cases he : isExpMark c with
  | false => rfl
  | true =>
    exfalso
    have : c = 'e' ∨ c = 'E' := by simpa [isExpMark] using he
    rcases this with rfl | rfl <;> exact absurd h (by decide)

lemma digit_or_underscore_not_dot (c : Char)
    (h : (c.isDigit || c == '_') = true) : isDotMark c = false := by
  cases he : isDotMark c with
  | false => rfl
  | true =>
    exfalso
    have : c = '.' := by simpa [isDotMark] using he
    subst this
    exact absurd h (by decide)

lemma digitsUnd_numOk (l : List Char) (h : digitsUnd l = true) : numOk l = true := by
  have hchars := digitsUnd_chars l h
  have hexp : splitAtFirst isExpMark l = (l, none) :=
    splitAtFirst_no_match _ _ (fun c hc => digit_or_underscore_not_exp c (hchars c hc))
  have hdot : splitAtFirst isDotMark l = (l, none) :=
    splitAtFirst_no_match _ _ (fun c hc => digit_or_underscore_not_dot c (hchars c hc))
  simp only [numOk, hexp, mantOk, hdot]
  exact h

/-- Every string accepted by int() is accepted by float(): both strip
the same whitespace and sign, and a plain digit sequence is a valid
float mantissa. -/
lemma pyIntOk_imp_pyFloatOk (s : List Char) (h : pyIntOk s = true) :
    pyFloatOk s = true := by
  unfold pyIntOk at h
  have hn := digitsUnd_numOk _ h
  simp [pyFloatOk, hn]

/-- Claim C9: the Integer branch of the field type inference is
unreachable - whenever float(value) raises ValueError, int(value) does
too, so no field is ever typed db.Integer. -/
theorem integer_branch_unreachable (value : String) :
    inferColumnType value ≠ ColType.integer := by
  unfold inferColumnType
  by_cases hf : pyFloatOk value.data = true
  · simp [hf]
  · have hi : pyIntOk value.data = false := by
      cases hi : pyIntOk value.data
      · rfl
      · exact absurd (pyIntOk_imp_pyFloatOk _ hi) hf
    simp [hf, hi]

/-
Schema derivation: create_static_model and create_dynamic_model in
db_module.py.  Both restrict the raw variable map to a fixed whitelist,
pick a column type per field with the try-float/try-int/else-string
chain, and memoize the resulting model class in a module-level global
(_UPSStaticData / _UPSDynamicData) so that the class - and therefore the
backing table definition - is created at most once per process.
-/

/-- The fixed whitelist STATIC_FIELDS of db_module.py. -/
def STATIC_FIELDS : List String :=
  ["device.model", "device.mfr", "device.serial", "device.type", "device.description",
   "device.contact", "device.location", "device.part", "device.macaddr", "device.usb_version",
   "ups.model", "ups.mfr", "ups.mfr.date", "ups.serial", "ups.vendorid",
   "ups.productid", "ups.firmware", "ups.firmware.aux", "ups.type", "ups.id",
   "ups.display.language", "ups.contacts",
   "battery.type", "battery.date", "battery.mfr.date", "battery.packs",
   "battery.packs.external", "battery.protection",
   "driver.name", "driver.version", "driver.version.internal",
   "driver.version.data", "driver.version.usb"]

/-- The fixed whitelist DYNAMIC_FIELDS of db_module.py. -/
def DYNAMIC_FIELDS : List String :=
  ["device.uptime", "device.count",
   "ups.status", "ups.alarm", "ups.time", "ups.date", "ups.temperature",
   "ups.load", "ups.load.high", "ups.delay.start", "ups.delay.reboot", "ups.delay.shutdown",
   "ups.timer.start", "ups.timer.reboot", "ups.timer.shutdown", "ups.test.interval",
   "ups.test.result", "ups.test.date", "ups.display.language", "ups.efficiency",
   "ups.power", "ups.power.nominal", "ups.realpower", "ups.realpower.nominal",
   "ups.beeper.status", "ups.watchdog.status", "ups.start.auto", "ups.start.battery",
   "ups.start.reboot", "ups.shutdown",
   "input.voltage", "input.voltage.maximum", "input.voltage.minimum", "input.voltage.status",
   "input.voltage.nominal", "input.voltage.extended", "input.transfer.low", "input.transfer.high",
   "input.sensitivity", "input.frequency", "input.frequency.nominal", "input.current",
   "input.current.nominal", "input.realpower", "input.realpower.nominal",
   "output.voltage", "output.voltage.nominal", "output.frequency", "output.frequency.nominal",
   "output.current", "output.current.nominal",
   "battery.charge", "battery.charge.low", "battery.charge.warning", "battery.voltage",
   "battery.voltage.nominal", "battery.current", "battery.temperature", "battery.runtime",
   "battery.runtime.low", "battery.alarm.threshold",
   "ambient.temperature", "ambient.humidity", "ambient.temperature.high",
   "ambient.temperature.low", "ambient.humidity.high", "ambient.humidity.low"]

/-- The dot that separates NUT name components. -/
def dotS : String := "."

/-- The underscore used in database column names. -/
def underscoreS : String := "_"

/-- Convert a NUT variable name to a database column name
(key.replace of the source, e.g. device.model to device_model). -/
def nutToDb (key : String) : String := key.replace dotS underscoreS

/-- NUT name of the instantaneous power reading. -/
def kRealpower : String := "ups.realpower"

/-- NUT name of the load percentage reading. -/
def kLoad : String := "ups.load"

/-- NUT name of the nominal power rating. -/
def kRealpowerNominal : String := "ups.realpower.nominal"

/-- Default raw value injected for a locally computed ups.realpower. -/
def zeroS : String := "0"

/-- A derived storage layout: the column names with their types, in
declaration order. -/
abbrev Schema := List (String × ColType)

/-- Models the ups.realpower injection of create_dynamic_model: if the
filtered variables lack ups.realpower but report both ups.load and
ups.realpower.nominal, a default entry is added so the model always has
the column. -/
def ensureRealpower (vs : List (String × String)) : List (String × String) :=
  if (vs.find? (fun p => p.1 == kRealpower)).isNone
      && (vs.find? (fun p => p.1 == kLoad)).isSome
      && (vs.find? (fun p => p.1 == kRealpowerNominal)).isSome
  then vs ++ [(kRealpower, zeroS)]
  else vs

/-- Models the class body of UPSDynamicData built by
create_dynamic_model: base columns id and timestamp_tz, the three
always-present power columns ups_realpower, ups_realpower_hrs and
ups_realpower_days, then one column per whitelisted reported variable
(ups.realpower skipped, as its column already exists), typed by the
try-float/try-int/else-string chain. -/
def deriveDynSchema (all_variables : List (String × String)) : Schema :=
  ("id", ColType.integer)
  :: ("timestamp_tz", ColType.datetime)
  :: ("ups_realpower", ColType.float)
  :: ("ups_realpower_hrs", ColType.float)
  :: ("ups_realpower_days", ColType.float)
  :: ((ensureRealpower (all_variables.filter (fun p => DYNAMIC_FIELDS.contains p.1))).filter
        (fun p => !(p.1 == kRealpower))).map
      (fun p => (nutToDb p.1, inferColumnType p.2))

/-- Models the class body of UPSStaticData built by create_static_model:
base columns id and timestamp, then one column per whitelisted reported
variable, typed by the try-float/try-int/else-string chain. -/
def deriveStaticSchema (all_variables : List (String × String)) : Schema :=
  ("id", ColType.integer)
  :: ("timestamp", ColType.datetime)
  :: (all_variables.filter (fun p => STATIC_FIELDS.contains p.1)).map
      (fun p => (nutToDb p.1, inferColumnType p.2))

/-- Models create_dynamic_model with its module-level memo
_UPSDynamicData made explicit: the first argument is the memo before the
call, the second the raw variable map the device would report if it were
queried.  When the memo is set the cached model is returned as-is and
the device is not consulted; otherwise the model is derived and
cached. -/
def create_dynamic_model (cached : Option Schema)
    (queried_variables : List (String × String)) : Schema × Option Schema :=
  match cached with
  | some m => (m, some m)
  | none =>
    let m := deriveDynSchema queried_variables
    (m, some m)

/-- Models create_static_model with its module-level memo _UPSStaticData
made explicit, exactly as for create_dynamic_model. -/
def create_static_model (cached : Option Schema)
    (queried_variables : List (String × String)) : Schema × Option Schema :=
  match cached with
  | some m => (m, some m)
  | none =>
    let m := deriveStaticSchema queried_variables
    (m, some m)

/-- Claim C7: model creation is memoized, deterministic and idempotent.
A second call returns exactly the object created by the first and leaves
the memo unchanged, whatever the device would report on the second query
(the device is not re-queried and no storage is recreated); and the
first call's result is the pure function of the raw key/value set given
by deriveDynSchema / deriveStaticSchema, so identical raw sets yield
identical field-to-type maps. -/
theorem model_creation_memoized (cached : Option Schema)
    (v1 v2 : List (String × String)) :
    (create_dynamic_model (create_dynamic_model cached v1).2 v2
      = ((create_dynamic_model cached v1).1, (create_dynamic_model cached v1).2))
    ∧ (create_static_model (create_static_model cached v1).2 v2
      = ((create_static_model cached v1).1, (create_static_model cached v1).2))
    ∧ create_dynamic_model none v1 = (deriveDynSchema v1, some (deriveDynSchema v1))
    ∧ create_static_model none v1 = (deriveStaticSchema v1, some (deriveStaticSchema v1)) := by
  cases cached <;> simp [create_dynamic_model, create_static_model]

/-
The locally computed instantaneous power: get_ups_data (db_module.py
lines 505-516).  When the raw sample lacks ups.realpower, the reader
parses ups.load and ups.realpower.nominal (each defaulting to the string
"0" when absent) as floats and stores
round((load / 100) * nominal, 2) in ups_realpower; the except
(ValueError, TypeError, KeyError) branch stores 0.0, and it fires
exactly when one of the two float() calls raises ValueError: the .get
defaults rule out KeyError, the string inputs TypeError, and the special
words inf/infinity/nan parse successfully to non-finite values that flow
through the arithmetic, round(x, 2) preserving them without raising.
The parser below therefore returns the parsed value - finite (evaluating
the numeric grammar exactly) or non-finite - and none only on a genuine
ValueError.
-/

/-- Numeric value of a digit sequence, ignoring underscores. -/
def digitsVal (l : List Char) : Nat :=
  l.foldl (fun acc c => if c == '_' then acc else acc * 10 + (c.toNat - 48)) 0

/-- Number of actual digits in a fractional digit sequence. -/
def fracDigits (l : List Char) : Nat := (l.filter (fun c => !(c == '_'))).length

/-- Value of a float mantissa: integer part plus fractional part. -/
def mantVal (l : List Char) : ℚ :=
  match splitAtFirst isDotMark l with
  | (a, none) => (digitsVal a : ℚ)
  | (a, some b) => (digitsVal a : ℚ) + (digitsVal b : ℚ) / (10 : ℚ) ^ fracDigits b

/-- Signed integer value of a float exponent body. -/
def expZ (l : List Char) : ℤ :=
  match l with
  | [] => 0
  | c :: r =>
    if c == '-' then -(digitsVal r : ℤ)
    else if c == '+' then (digitsVal r : ℤ)
    else (digitsVal (c :: r) : ℤ)

/-- Ten to a signed power, as a rational. -/
def qpow10 (z : ℤ) : ℚ :=
  if 0 ≤ z then (10 : ℚ) ^ z.toNat else 1 / (10 : ℚ) ^ (-z).toNat

/-- Value of the numeric body of a float literal. -/
def numVal (l : List Char) : ℚ :=
  match splitAtFirst isExpMark l with
  | (m, none) => mantVal m
  | (m, some e) => mantVal m * qpow10 (expZ e)

/-- Sign factor contributed by an optional leading sign character. -/
def signQ (l : List Char) : ℚ :=
  match l with
  | [] => 1
  | c :: _ => if c == '-' then -1 else 1

/-- Result of a successful float() call: a finite value, a signed
infinity, or nan. -/
inductive PyFloat
  | finite (q : ℚ)
  | infVal (neg : Bool)
  | nanVal
deriving DecidableEq

/-- Whether the optional leading sign of the stripped string is a
minus. -/
def negSign (l : List Char) : Bool :=
  match l with
  | [] => false
  | c :: _ => c == '-'

/-- Models float(s): none exactly when the parse raises ValueError;
the special words inf/infinity/nan are accepted and yield the
corresponding non-finite value. -/
def pyFloatParse (s : List Char) : Option PyFloat :=
  let w := stripWs s
  let b := stripSignL w
  if infNanOk b then
    if b.map Char.toLower == nanChars then some PyFloat.nanVal
    else some (PyFloat.infVal (negSign w))
  else if numOk b then some (PyFloat.finite (signQ w * numVal b))
  else none

/-- IEEE division of a parsed value by the positive constant 100:
infinities keep their sign, nan propagates. -/
def pyDiv100 (x : PyFloat) : PyFloat :=
  match x with
  | PyFloat.finite q => PyFloat.finite (q / 100)
  | v => v

/-- IEEE multiplication of two parsed values: nan propagates, infinity
times zero is nan, otherwise infinities carry the product sign. -/
def pyMul (x y : PyFloat) : PyFloat :=
  match x, y with
  | PyFloat.nanVal, _ => PyFloat.nanVal
  | _, PyFloat.nanVal => PyFloat.nanVal
  | PyFloat.finite q, PyFloat.finite r => PyFloat.finite (q * r)
  | PyFloat.finite q, PyFloat.infVal n =>
    if q = 0 then PyFloat.nanVal else PyFloat.infVal (xor (decide (q < 0)) n)
  | PyFloat.infVal n, PyFloat.finite q =>
    if q = 0 then PyFloat.nanVal else PyFloat.infVal (xor n (decide (q < 0)))
  | PyFloat.infVal n, PyFloat.infVal p => PyFloat.infVal (xor n p)

/-- Models round(x, 2) on a float() result: finite values round to two
decimal places; round(inf, 2) is inf and round(nan, 2) is nan, neither
raising. -/
def pyRound2 (x : PyFloat) : PyFloat :=
  match x with
  | PyFloat.finite q => PyFloat.finite (round2 q)
  | v => v

/-- Models dict.get(key, default) on the parsed raw key/value list. -/
def rawGetD (raw : List (String × String)) (key dflt : String) : String :=
  match raw.find? (fun p => p.1 == key) with
  | some p => p.2
  | none => dflt

/-- Models the ups_realpower computation of get_ups_data: none when the
device already reports ups.realpower (the reported value is used
instead); otherwise round((load / 100) * nominal, 2) over float()
semantics - non-finite parses flow through the arithmetic and the
round - with the except branch storing 0.0 exactly when one of the two
parses raises ValueError. -/
def ups_realpower_calc (raw : List (String × String)) : Option PyFloat :=
  if (raw.find? (fun p => p.1 == kRealpower)).isSome then none
  else
    match pyFloatParse (rawGetD raw kLoad zeroS).data,
          pyFloatParse (rawGetD raw kRealpowerNominal zeroS).data with
    | some load_percent, some nominal_power =>
      some (pyRound2 (pyMul (pyDiv100 load_percent) nominal_power))
    | _, _ => some (PyFloat.finite 0)

/-- Claim C8: the measurement schema always contains the three extra
power columns whatever the device reports; and when the raw sample
lacks ups.realpower, the reader computes
round((ups.load / 100) * ups.realpower.nominal, 2) from the parsed
strings, falling back to 0.0 when a parse fails (raises ValueError). -/
theorem power_schema_and_calc (all_variables raw : List (String × String)) (l n : ℚ)
    (habs : (raw.find? (fun p => p.1 == kRealpower)).isSome = false) :
    ("ups_realpower", ColType.float) ∈ deriveDynSchema all_variables
    ∧ ("ups_realpower_hrs", ColType.float) ∈ deriveDynSchema all_variables
    ∧ ("ups_realpower_days", ColType.float) ∈ deriveDynSchema all_variables
    ∧ (pyFloatParse (rawGetD raw kLoad zeroS).data = some (PyFloat.finite l) →
       pyFloatParse (rawGetD raw kRealpowerNominal zeroS).data = some (PyFloat.finite n) →
       ups_realpower_calc raw = some (PyFloat.finite (round2 (l / 100 * n))))
    ∧ ((pyFloatParse (rawGetD raw kLoad zeroS).data = none
        ∨ pyFloatParse (rawGetD raw kRealpowerNominal zeroS).data = none) →
       ups_realpower_calc raw = some (PyFloat.finite 0)) := by
  refine ⟨by simp [deriveDynSchema], by simp [deriveDynSchema], by simp [deriveDynSchema],
    ?_, ?_⟩
  · intro h1 h2
    simp [ups_realpower_calc, habs, h1, h2, pyDiv100, pyMul, pyRound2]
  · intro h
    rcases h with h | h
    · simp [ups_realpower_calc, habs, h]
    · cases hload : pyFloatParse (rawGetD raw kLoad zeroS).data <;>
        simp [ups_realpower_calc, habs, h, hload]

theorem power_schema_and_calc_witness :
    ("ups_realpower_days", ColType.float) ∈ deriveDynSchema []
    ∧ ups_realpower_calc [(kLoad, "50"), (kRealpowerNominal, "900")]
      = some (PyFloat.finite 450)
    ∧ ups_realpower_calc [(kLoad, "five"), (kRealpowerNominal, "900")]
      = some (PyFloat.finite 0)
    ∧ ups_realpower_calc [(kLoad, "inf"), (kRealpowerNominal, "900")]
      = some (PyFloat.infVal false) := by
  have hr1 : rawGetD [(kLoad, "50"), (kRealpowerNominal, "900")] kLoad zeroS = "50" := by
    decide
  have hr2 : rawGetD [(kLoad, "50"), (kRealpowerNominal, "900")] kRealpowerNominal zeroS
      = "900" := by
    decide
  have hv1 : pyFloatParse ("50").data = some (PyFloat.finite 50) := by
    have hin : infNanOk (stripSignL (stripWs ("50").data)) = false := by decide
    have hok : numOk (stripSignL (stripWs ("50").data)) = true := by decide
    simp only [pyFloatParse, hin, hok]
    simp +decide [signQ, numVal, mantVal, splitAtFirst, digitsVal, stripWs, stripSignL,
      isDotMark, isExpMark, isPySpace, fracDigits, expZ, qpow10, List.dropWhile, List.foldl]
  have hv2 : pyFloatParse ("900").data = some (PyFloat.finite 900) := by
    have hin : infNanOk (stripSignL (stripWs ("900").data)) = false := by decide
    have hok : numOk (stripSignL (stripWs ("900").data)) = true := by decide
    simp only [pyFloatParse, hin, hok]
    simp +decide [signQ, numVal, mantVal, splitAtFirst, digitsVal, stripWs, stripSignL,
      isDotMark, isExpMark, isPySpace, fracDigits, expZ, qpow10, List.dropWhile, List.foldl]
  have hv3 : pyFloatParse
      (rawGetD [(kLoad, "five"), (kRealpowerNominal, "900")] kLoad zeroS).data = none := by
    have hin : infNanOk (stripSignL (stripWs
        (rawGetD [(kLoad, "five"), (kRealpowerNominal, "900")] kLoad zeroS).data)) = false := by
      decide
    have hok : numOk (stripSignL (stripWs
        (rawGetD [(kLoad, "five"), (kRealpowerNominal, "900")] kLoad zeroS).data)) = false := by
      decide
    simp [pyFloatParse, hin, hok]
  have hv4 : pyFloatParse ("inf").data = some (PyFloat.infVal false) := by
    have hin : infNanOk (stripSignL (stripWs ("inf").data)) = true := by decide
    have hnan : ((stripSignL (stripWs ("inf").data)).map Char.toLower == nanChars)
        = false := by decide
    simp +decide [pyFloatParse, hin, hnan, negSign, stripWs, stripSignL, isPySpace,
      List.dropWhile]
  have h1 := power_schema_and_calc []
    [(kLoad, "50"), (kRealpowerNominal, "900")] 50 900 (by decide)
  have h2 := power_schema_and_calc []
    [(kLoad, "five"), (kRealpowerNominal, "900")] 0 0 (by decide)
  refine ⟨h1.2.2.1, ?_, h2.2.2.2.2 (Or.inl hv3), ?_⟩
  · have hc := h1.2.2.2.1 (by rw [hr1]; exact hv1) (by rw [hr2]; exact hv2)
    rw [hc]
    norm_num [round2, roundHalfEven]
  · have hri : rawGetD [(kLoad, "inf"), (kRealpowerNominal, "900")] kLoad zeroS
        = "inf" := by decide
    have hrn : rawGetD [(kLoad, "inf"), (kRealpowerNominal, "900")] kRealpowerNominal zeroS
        = "900" := by decide
    have habs2 : ((([(kLoad, "inf"), (kRealpowerNominal, "900")]
        : List (String × String)).find? (fun p => p.1 == kRealpower)).isSome) = false := by
      decide
    simp +decide [ups_realpower_calc, habs2, hri, hrn, hv4, hv2, pyDiv100, pyMul, pyRound2]

/-
Buffered-window averaging: UPSDataCache.calculate_averages (db_module.py
lines 1083-1119).  get_ups_data has already converted each raw string
that parses as a float into a rounded float, so a buffered sample maps
field names to either numbers or strings (RawValue).  Pandas marks a
DataFrame column numeric exactly when none of its values is a string;
numeric columns are averaged (mean rounded to 2 decimals), the remaining
columns contribute the value found in the last buffered row.
-/

/-- A value of a buffered sample: a float or a string, as stored by
get_ups_data. -/
inductive RawValue
  | num (q : ℚ)
  | str (s : String)
deriving DecidableEq

/-- A buffered sample: the field-to-value mapping of one device read. -/
abbrev RawSample := List (String × RawValue)

/-- Value of a field inside one sample. -/
def lookupVal (sample : RawSample) (field : String) : Option RawValue :=
  match sample.find? (fun p => p.1 == field) with
  | some p => some p.2
  | none => none

/-- The DataFrame column of a field: one entry per buffered row, none
standing for the NaN of a row that lacks the field. -/
def colVals (buf : List RawSample) (field : String) : List (Option RawValue) :=
  buf.map (fun sample => lookupVal sample field)

/-- Whether pandas select_dtypes classifies the field's column as
numeric: no buffered value of the field is a string. -/
def isNumericColumn (buf : List RawSample) (field : String) : Bool :=
  (colVals buf field).all (fun v =>
    match v with
    | some (RawValue.str _) => false
    | _ => true)

/-- Project a column cell to its numeric value, if any. -/
def numOnly : Option RawValue → Option ℚ
  | some (RawValue.num q) => some q
  | _ => none

/-- The numeric values present in the field's column (mean skips NaN). -/
def columnNums (buf : List RawSample) (field : String) : List ℚ :=
  (colVals buf field).filterMap numOnly

/-- Models calculate_averages, projected to one field: None on an empty
buffer (the source returns None and the flush cycle aborts); no result
for a field absent from every buffered row (no such DataFrame column
exists); the mean rounded to 2 decimals for a numeric column; the last
row's value otherwise (iloc negative one). -/
def calculate_averages (buf : List RawSample) (field : String) : Option RawValue :=
  if buf = [] then none
  else if (colVals buf field).all Option.isNone then none
  else if isNumericColumn buf field then
    some (RawValue.num
      (round2 ((columnNums buf field).sum / ((columnNums buf field).length : ℚ))))
  else (buf.getLast?).bind (fun sample => lookupVal sample field)

lemma filterMap_num_col (qs : List ℚ) :
    (qs.map (fun q => some (RawValue.num q))).filterMap numOnly = qs := by
  induction qs with
  | nil => rfl
  | cons q qs ih => simp [numOnly, ih]

/-- Claim C2: for a field present in every buffered row, if all its
values are numeric the computed result is their arithmetic mean rounded
to 2 decimal places, and otherwise it is the value of the most recent
(last) buffered row. -/
theorem calculate_averages_spec (buf : List RawSample) (field : String)
    (hne : buf ≠ [])
    (hpres : ∀ sample ∈ buf, (lookupVal sample field).isSome = true) :
    (∀ qs : List ℚ, colVals buf field = qs.map (fun q => some (RawValue.num q)) →
      calculate_averages buf field
        = some (RawValue.num (round2 (qs.sum / (qs.length : ℚ)))))
    ∧ (isNumericColumn buf field = false →
      ∃ sample, buf.getLast? = some sample
        ∧ calculate_averages buf field = lookupVal sample field) := by
  obtain ⟨b, rest, rfl⟩ : ∃ b rest, buf = b :: rest := by
    cases buf with
    | nil => exact absurd rfl hne
    | cons b rest => exact ⟨b, rest, rfl⟩
  have hb := hpres b (List.mem_cons_self b rest)
  have hbn : (lookupVal b field).isNone = false := by
    cases h : lookupVal b field
    · rw [h] at hb; simp at hb
    · rfl
  have hall : (colVals (b :: rest) field).all Option.isNone = false := by
    simp only [colVals, List.map_cons, List.all_cons, hbn, Bool.false_and]
  constructor
  · intro qs hq
    have hnum : isNumericColumn (b :: rest) field = true := by
      simp [isNumericColumn, hq, List.all_map, Function.comp]
    have hcn : columnNums (b :: rest) field = qs := by
      unfold columnNums
      rw [hq, filterMap_num_col]
    simp [calculate_averages, hall, hnum, hcn]
  · intro hnn
    have hsome : (b :: rest).getLast?.isSome := by
      rw [List.getLast?_isSome]
      simp
    obtain ⟨sample, hg⟩ := Option.isSome_iff_exists.mp hsome
    refine ⟨sample, hg, ?_⟩
    simp [calculate_averages, hall, hnn, hg]

/-- Demonstration buffer with one numeric field sampled three times. -/
def demoNumBuf : List RawSample :=
  [[("battery_charge", RawValue.num 10)],
   [("battery_charge", RawValue.num 20)],
   [("battery_charge", RawValue.num 30)]]

/-- Demonstration buffer with one string field sampled three times. -/
def demoStrBuf : List RawSample :=
  [[("ups_status", RawValue.str "OL")],
   [("ups_status", RawValue.str "OL")],
   [("ups_status", RawValue.str "OB")]]

theorem calculate_averages_spec_witness :
    calculate_averages demoNumBuf ("battery_charge") = some (RawValue.num 20)
    ∧ calculate_averages demoStrBuf ("ups_status") = some (RawValue.str "OB") := by
  have h1 := (calculate_averages_spec demoNumBuf ("battery_charge")
    (by decide) (by decide)).1 [10, 20, 30] (by decide)
  have h2 := (calculate_averages_spec demoStrBuf ("ups_status")
    (by decide) (by decide)).2 (by decide)
  constructor
  · rw [h1]
    norm_num [List.sum_cons, List.sum_nil, round2, roundHalfEven]
  · obtain ⟨sample, hg, hres⟩ := h2
    have hgc : demoStrBuf.getLast? = some [("ups_status", RawValue.str "OB")] := by decide
    rw [hgc] at hg
    injection hg with hs
    rw [hres, ← hs]
    decide

/-
Measurement record defaults: the UPSDynamicData class body (db_module.py
lines 303-312) adds a daily_power property returning
`self.ups_realpower_days or 0.0`, and an __init__ hook that replaces a
missing (None) ups_realpower_days with 0.0.
-/

/-- The fields of a freshly constructed UPSDynamicData record that the
daily-average machinery touches; ups_realpower_days is None exactly when
the column is null. -/
structure UPSDynRecordState where
  timestamp_tz : Nat
  ups_realpower_days : Option ℚ
deriving DecidableEq

/-- Models UPSDynamicData.__init__: the keyword arguments are stored,
then a None ups_realpower_days is replaced by 0.0. -/
def mkUPSDynamicData (timestamp_tz : Nat) (ups_realpower_days : Option ℚ) :
    UPSDynRecordState :=
  { timestamp_tz := timestamp_tz
    ups_realpower_days :=
      match ups_realpower_days with
      | none => some 0
      | some q => some q }

/-- Models the daily_power property: `self.ups_realpower_days or 0.0`,
where Python's `or` yields 0.0 both for None and for a falsy 0.0. -/
def daily_power (r : UPSDynRecordState) : ℚ :=
  match r.ups_realpower_days with
  | none => 0
  | some q => if q = 0 then 0 else q

/-- Claim C10: a newly constructed record never carries a null
ups_realpower_days - when the field is not supplied it is stored as 0.0
- and the daily_power accessor returns 0.0 on a record whose stored
value is null. -/
theorem realpower_days_defaults (ts : Nat) (d : Option ℚ) :
    (mkUPSDynamicData ts none).ups_realpower_days = some 0
    ∧ (mkUPSDynamicData ts d).ups_realpower_days ≠ none
    ∧ daily_power { timestamp_tz := ts, ups_realpower_days := none } = 0 := by
  refine ⟨rfl, ?_, rfl⟩
  cases d <;> simp [mkUPSDynamicData]
